import Mathlib

/-!
Verification of the single-slot handoff channel, the names-file loader and
the console/drawing helpers of the DarkHelp sample tool
(`send_one_replaceable_object_t`, `objects_names_from_file`,
`show_console_result`, `draw_boxes`).

The C++ class `send_one_replaceable_object_t<T>` holds a `const bool sync`
and a `std::atomic<T *> a_ptr`; a null pointer means the slot is empty.  We
embed the pointer cell as an `Option T`, the atomic `exchange` as a pure
function returning the new state together with the previous cell content,
and the blocking loops of `send`/`receive` as enabledness conditions of a
labelled step relation `Step` (a blocked call simply has no step until its
condition holds, exactly as the busy-wait loop keeps polling).
-/

/-- State of `send_one_replaceable_object_t<T>`: the `const bool sync` flag
and the atomic pointer `a_ptr`, embedded as `Option T` (`none` = NULL). -/
structure send_one_replaceable_object_t (T : Type) where
  sync : Bool
  a_ptr : Option T
deriving Repr, DecidableEq

namespace send_one_replaceable_object_t

variable {T : Type}

/-- The constructor `send_one_replaceable_object_t(bool _sync) : sync(_sync),
a_ptr(NULL)`. -/
def init (s : Bool) : send_one_replaceable_object_t T :=
  ⟨s, none⟩

/-- `a_ptr.load()`. -/
def load (c : send_one_replaceable_object_t T) : Option T :=
  c.a_ptr

/-- `a_ptr.exchange(p)`: stores `p` and returns the previous content
(together with the updated channel state). -/
def exchange (c : send_one_replaceable_object_t T) (p : Option T) :
    send_one_replaceable_object_t T × Option T :=
  (⟨c.sync, p⟩, c.a_ptr)

/-- The unconditional tail of `send`: allocate a copy of the object and
`a_ptr.exchange(new_ptr)`.  The second component is the old pointer captured
by `unique_ptr old_ptr` — freed on scope exit without ever being delivered.
The `sync` busy-wait loop preceding this exchange is modelled as the
enabledness condition of the `Step.send_sync` rule below. -/
def send (c : send_one_replaceable_object_t T) (v : T) :
    send_one_replaceable_object_t T × Option T :=
  exchange c (some v)

/-- `receive` once the outer busy-wait has seen a value: `a_ptr.exchange(NULL)`,
returning the taken value and the emptied channel; `none` when the slot was
empty (in the C++ code the do/while loop then retries). -/
def receive (c : send_one_replaceable_object_t T) :
    Option (T × send_one_replaceable_object_t T) :=
  match c.a_ptr with
  | some v => some (v, (exchange c none).1)
  | none => none

/-- The `do { while(!a_ptr.load()) sleep; ptr.reset(a_ptr.exchange(NULL)); }
while (!ptr);` loop of `receive`, over the sequence of results the successive
`exchange(NULL)` calls observe: the loop ends at the first non-null result. -/
def receive_loop : List (Option T) → Option T
  | [] => none
  | p :: rest =>
    match p with
    | some v => some v
    | none => receive_loop rest

/-- `bool is_object_present() { return (a_ptr.load() != NULL); }` -/
def is_object_present (c : send_one_replaceable_object_t T) : Bool :=
  (load c).isSome

end send_one_replaceable_object_t

open send_one_replaceable_object_t

/-- Observable events of one channel operation completing. -/
inductive Event (T : Type) where
  | send (v : T)
  | recv (v : T)
  | present (b : Bool)
deriving Repr, DecidableEq

/-- One completed operation on the channel.  A synchronous `send` completes
only once its busy-wait loop has seen an empty slot; an overwrite-mode `send`
completes unconditionally; `receive` completes only once a value is present
(its exchange then takes that value); `is_object_present` reports on the
current cell and completes always. -/
inductive Step {T : Type} :
    send_one_replaceable_object_t T → Event T →
    send_one_replaceable_object_t T → Prop where
  | send_sync : ∀ (c : send_one_replaceable_object_t T) (v : T),
      c.sync = true → load c = none →
      Step c (Event.send v) (send c v).1
  | send_over : ∀ (c : send_one_replaceable_object_t T) (v : T),
      c.sync = false →
      Step c (Event.send v) (send c v).1
  | recv : ∀ (c : send_one_replaceable_object_t T) (v : T),
      load c = some v →
      Step c (Event.recv v) (exchange c none).1
  | present : ∀ (c : send_one_replaceable_object_t T),
      Step c (Event.present (is_object_present c)) c

/-- Finite interleavings of completed operations. -/
inductive Steps {T : Type} :
    send_one_replaceable_object_t T → List (Event T) →
    send_one_replaceable_object_t T → Prop where
  | nil : ∀ c, Steps c [] c
  | cons : ∀ c e c' tr c'', Step c e c' → Steps c' tr c'' → Steps c (e :: tr) c''

/-- Values passed to `send` along a trace, in order. -/
def sentOf {T : Type} : List (Event T) → List T
  | [] => []
  | Event.send v :: tr => v :: sentOf tr
  | Event.recv _ :: tr => sentOf tr
  | Event.present _ :: tr => sentOf tr

/-- Values returned by `receive` along a trace, in order. -/
def recvOf {T : Type} : List (Event T) → List T
  | [] => []
  | Event.send _ :: tr => recvOf tr
  | Event.recv v :: tr => v :: recvOf tr
  | Event.present _ :: tr => recvOf tr

/-- The `for(std::string line; getline(file, line);) file_lines.push_back(line);`
loop of `objects_names_from_file`, over the file content as a character list.
`acc` holds the characters of the line being read so far (reversed).
`getline` consumes up to the next newline (dropping it) and succeeds; at end
of file it fails — unless characters were already read, in which case it
yields them as a final line. -/
def getlinesAux : List Char → List Char → List (List Char)
  | [], acc => if acc.isEmpty then [] else [acc.reverse]
  | ch :: rest, acc =>
    if ch = '\n' then acc.reverse :: getlinesAux rest []
    else getlinesAux rest (ch :: acc)

/-- `objects_names_from_file(filename)`.  The file system is abstracted as
what the `std::ifstream` constructor yields: `none` when `!file.is_open()`
(the function then returns the empty vector), `some content` with the file's
raw characters otherwise (the getline loop then collects the lines). -/
def objects_names_from_file (file : Option (List Char)) : List (List Char) :=
  match file with
  | none => []
  | some content => getlinesAux content []

/-- Integer fields of `bbox_t` from the external `yolo_v2_class.hpp` header
used by `draw_boxes` and `show_console_result` (pixel rectangle, class id,
tracking id; the `float` members `prob` and the 3-d coordinates play no role
in class-name indexing and are left out of the model). -/
structure bbox_t where
  x : Nat
  y : Nat
  w : Nat
  h : Nat
  obj_id : Nat
  track_id : Nat
deriving Repr, DecidableEq

/-- The class-name part of one line of `show_console_result`:
`if (obj_names.size() > i.obj_id) std::cout << obj_names[i.obj_id] << " - "`.
`none` when the guard fails and no name is printed. -/
def console_entry (obj_names : List String) (b : bbox_t) : Option String :=
  if h : b.obj_id < obj_names.length then some (obj_names.get ⟨b.obj_id, h⟩)
  else none

/-- `show_console_result`: one output line per detection, in order; each line
is the optional class name together with the detection whose numeric fields
the line prints. -/
def show_console_result (result_vec : List bbox_t) (obj_names : List String) :
    List (Option String × bbox_t) :=
  result_vec.map (fun b => (console_entry obj_names b, b))

/-- The label `draw_boxes` paints for one detection: inside the
`if (obj_names.size() > i.obj_id)` guard it is `obj_names[i.obj_id]`, with
`" - " + std::to_string(i.track_id)` appended when `i.track_id > 0`; outside
the guard no label is drawn (`none`). -/
def box_label (obj_names : List String) (b : bbox_t) : Option String :=
  if h : b.obj_id < obj_names.length then
    some (obj_names.get ⟨b.obj_id, h⟩ ++
      (if 0 < b.track_id then " - " ++ toString b.track_id else ""))
  else none

/-- `draw_boxes`: for each detection, the rectangle is always drawn; the
label is drawn only when the class id is in range.  We record the optional
label per detection. -/
def draw_boxes (result_vec : List bbox_t) (obj_names : List String) :
    List (Option String × bbox_t) :=
  result_vec.map (fun b => (box_label obj_names b, b))

lemma step_sync_eq {T : Type} {c c' : send_one_replaceable_object_t T}
    {e : Event T} (h : Step c e c') : c'.sync = c.sync := by
  cases h <;> rfl

lemma steps_sync_inv {T : Type} {c c' : send_one_replaceable_object_t T}
    {tr : List (Event T)} (h : Steps c tr c') :
    c.sync = true →
    recvOf tr ++ c'.a_ptr.toList = c.a_ptr.toList ++ sentOf tr := by
  induction h with
  | nil c => intro _; simp [recvOf, sentOf]
  | cons c e cm tr' c'' hstep hsteps ih =>
    intro hs
    have hm : cm.sync = true := (step_sync_eq hstep).trans hs
    cases hstep with
    | send_sync v hsy hld =>
      have hd : c.a_ptr = none := hld
      simp only [sentOf, recvOf, hd, Option.toList_none, List.nil_append]
      simpa [send, exchange] using ih hm
    | send_over v hsy =>
      rw [hs] at hsy; cases hsy
    | recv v hld =>
      have hd : c.a_ptr = some v := hld
      simp only [sentOf, recvOf, hd, Option.toList_some, List.cons_append]
      simpa [exchange] using ih hm
    | present =>
      simpa [sentOf, recvOf] using ih hm

lemma receive_loop_finds {T : Type} :
    ∀ obs : List (Option T), (∃ w : T, some w ∈ obs) →
      ∃ u : T, receive_loop obs = some u ∧ some u ∈ obs := by
  intro obs
  induction obs with
  | nil => rintro ⟨w, hw⟩; cases hw
  | cons p rest ih =>
    rintro ⟨w, hw⟩
    cases p with
    | some u => exact ⟨u, rfl, List.mem_cons_self _ _⟩
    | none =>
      have hrest : ∃ w : T, some w ∈ rest := by
        refine ⟨w, ?_⟩
        rcases List.mem_cons.mp hw with h | h
        · cases h
        · exact h
      rcases ih hrest with ⟨u, hu, hmem⟩
      exact ⟨u, hu, List.mem_cons_of_mem _ hmem⟩

lemma getlinesAux_split (l rest acc : List Char) (hl : '\n' ∉ l) :
    getlinesAux (l ++ '\n' :: rest) acc =
      (acc.reverse ++ l) :: getlinesAux rest [] := by
  induction l generalizing acc with
  | nil => simp [getlinesAux]
  | cons c cs ih =>
    have hc : c ≠ '\n' := fun h => hl (h ▸ List.mem_cons_self _ _)
    have hcs : '\n' ∉ cs := fun h => hl (List.mem_cons_of_mem _ h)
    simp only [List.cons_append, getlinesAux, if_neg hc, List.append_eq]
    rw [ih (c :: acc) hcs]
    simp

lemma getlinesAux_last (l acc : List Char) (hl : '\n' ∉ l) :
    getlinesAux l acc =
      if (acc.reverse ++ l).isEmpty then [] else [acc.reverse ++ l] := by
  induction l generalizing acc with
  | nil => simp [getlinesAux]
  | cons c cs ih =>
    have hc : c ≠ '\n' := fun h => hl (h ▸ List.mem_cons_self _ _)
    have hcs : '\n' ∉ cs := fun h => hl (List.mem_cons_of_mem _ h)
    simp only [getlinesAux, if_neg hc]
    rw [ih (c :: acc) hcs]
    simp [List.isEmpty_iff]

/-- C1: in synchronous mode, along every interleaving of completed sends and
receives starting from a freshly constructed channel, the values returned by
`receive` are exactly the values passed to `send`, in order — the only
possible difference is the single value still sitting in the slot, so once
the slot is empty the two sequences are equal; nothing is dropped or
duplicated. -/
theorem sync_channel_delivers_in_order {T : Type} (tr : List (Event T))
    (c : send_one_replaceable_object_t T)
    (h : Steps (init true) tr c) :
    recvOf tr ++ c.a_ptr.toList = sentOf tr ∧
    (c.a_ptr = none → recvOf tr = sentOf tr) ∧
    ∃ pending, sentOf tr = recvOf tr ++ pending ∧ pending.length ≤ 1 := by
  have hinv := steps_sync_inv h rfl
  have h0 : (init true : send_one_replaceable_object_t T).a_ptr = none := rfl
  rw [h0] at hinv
  simp only [Option.toList_none, List.nil_append] at hinv
  refine ⟨hinv, ?_, ?_⟩
  · intro he
    rw [he] at hinv
    simpa using hinv
  · refine ⟨c.a_ptr.toList, hinv.symm, ?_⟩
    cases c.a_ptr <;> simp

/-- C1 witness: the trace send 42 then receive 42 from a synchronous channel. -/
theorem sync_channel_delivers_in_order_witness :
    recvOf [Event.send (42 : Nat), Event.recv 42] ++
        (init true : send_one_replaceable_object_t Nat).a_ptr.toList =
      sentOf [Event.send (42 : Nat), Event.recv 42] ∧
    ((init true : send_one_replaceable_object_t Nat).a_ptr = none →
      recvOf [Event.send (42 : Nat), Event.recv 42] =
        sentOf [Event.send (42 : Nat), Event.recv 42]) ∧
    ∃ pending, sentOf [Event.send (42 : Nat), Event.recv 42] =
        recvOf [Event.send (42 : Nat), Event.recv 42] ++ pending ∧
      pending.length ≤ 1 :=
  sync_channel_delivers_in_order [Event.send 42, Event.recv 42] (init true)
    (Steps.cons _ _ ⟨true, some 42⟩ _ _
      (Step.send_sync (init true) 42 rfl rfl)
      (Steps.cons _ _ (init true) _ _
        (Step.recv ⟨true, some 42⟩ 42 rfl)
        (Steps.nil _)))

/-- C2: with an overwrite-mode channel, a second send before any receive
replaces the pending value: the next receive returns B and the value A comes
back out of the exchange only as the discarded old pointer, never delivered.
Concretely, after send 1, send 2, send 3 a receive returns 3 and
`is_object_present` on the resulting channel is false. -/
theorem overwrite_send_discards_previous {T : Type}
    (c : send_one_replaceable_object_t T) (A B : T) (hs : c.sync = false) :
    receive (send (send c A).1 B).1 = some (B, init false) ∧
    (send (send c A).1 B).2 = some A ∧
    receive (send (send (send
        (init false : send_one_replaceable_object_t Nat) 1).1 2).1 3).1 =
      some (3, init false) ∧
    (receive (send (send (send
        (init false : send_one_replaceable_object_t Nat) 1).1 2).1 3).1).map
        (fun p => is_object_present p.2) = some false := by
  refine ⟨?_, rfl, rfl, rfl⟩
  simp [receive, send, exchange, init, hs]

/-- C2 witness: a concrete overwrite-mode channel with sends 1 then 2. -/
theorem overwrite_send_discards_previous_witness :
    receive (send (send
        (init false : send_one_replaceable_object_t Nat) 1).1 2).1 =
      some (2, init false) ∧
    (send (send (init false : send_one_replaceable_object_t Nat) 1).1 2).2 =
      some 1 ∧
    receive (send (send (send
        (init false : send_one_replaceable_object_t Nat) 1).1 2).1 3).1 =
      some (3, init false) ∧
    (receive (send (send (send
        (init false : send_one_replaceable_object_t Nat) 1).1 2).1 3).1).map
        (fun p => is_object_present p.2) = some false :=
  overwrite_send_discards_previous (init false) 1 2 rfl

/-- C3: every reachable channel state holds at most one unread value (the
cell is a single pointer), and a synchronous-mode send only completes from an
empty slot, so its exchange never throws away an unread value: the discarded
old pointer is null and the new value is simply installed. -/
theorem slot_holds_at_most_one_value {T : Type}
    (c0 c cs c' : send_one_replaceable_object_t T)
    (tr : List (Event T)) (v : T)
    (_h1 : Steps c0 tr c) (h2 : cs.sync = true)
    (h3 : Step cs (Event.send v) c') :
    c.a_ptr.toList.length ≤ 1 ∧
    cs.a_ptr = none ∧ (send cs v).2 = none ∧ c' = ⟨cs.sync, some v⟩ := by
  have hlen : c.a_ptr.toList.length ≤ 1 := by cases c.a_ptr <;> simp
  cases h3 with
  | send_sync v hsy hld =>
    have he : cs.a_ptr = none := hld
    exact ⟨hlen, he, by simp [send, exchange, he], rfl⟩
  | send_over v hsy =>
    rw [h2] at hsy; cases hsy

/-- C3 witness: the empty trace and a synchronous send of 5 onto an empty
channel. -/
theorem slot_holds_at_most_one_value_witness :
    (init true : send_one_replaceable_object_t Nat).a_ptr.toList.length ≤ 1 ∧
    (init true : send_one_replaceable_object_t Nat).a_ptr = none ∧
    (send (init true : send_one_replaceable_object_t Nat) 5).2 = none ∧
    (send (init true : send_one_replaceable_object_t Nat) 5).1 =
      ⟨(init true : send_one_replaceable_object_t Nat).sync, some 5⟩ :=
  slot_holds_at_most_one_value (init true) (init true) (init true)
    (send (init true) 5).1 [] 5 (Steps.nil _) rfl
    (Step.send_sync (init true) 5 rfl rfl)

/-- C4: a completed `receive` happens exactly when a value is present, takes
that value, leaves the slot empty (the sync flag untouched), and returns the
value itself; and the do/while retry loop returns the first non-null result
of its exchanges, so whenever any attempt observes a value the loop yields a
real value, never an empty indicator. -/
theorem receive_returns_present_value {T : Type}
    (c c' : send_one_replaceable_object_t T) (v : T) (obs : List (Option T))
    (h1 : Step c (Event.recv v) c') (h2 : ∃ w : T, some w ∈ obs) :
    load c = some v ∧ c'.a_ptr = none ∧ c'.sync = c.sync ∧
    ∃ u : T, receive_loop obs = some u ∧ some u ∈ obs := by
  cases h1 with
  | recv v hld =>
    exact ⟨hld, rfl, rfl, receive_loop_finds obs h2⟩

/-- C4 witness: receiving 7 from a channel holding 7, with one exchange
attempt observing 7. -/
theorem receive_returns_present_value_witness :
    load (⟨true, some 7⟩ : send_one_replaceable_object_t Nat) = some 7 ∧
    (⟨true, none⟩ : send_one_replaceable_object_t Nat).a_ptr = none ∧
    (⟨true, none⟩ : send_one_replaceable_object_t Nat).sync =
      (⟨true, some 7⟩ : send_one_replaceable_object_t Nat).sync ∧
    ∃ u : Nat, receive_loop [some 7] = some u ∧ some u ∈ [some (7 : Nat)] :=
  receive_returns_present_value ⟨true, some 7⟩ ⟨true, none⟩ 7 [some 7]
    (Step.recv ⟨true, some 7⟩ 7 rfl) ⟨7, List.mem_cons_self _ _⟩

/-- C5: `is_object_present` reports exactly whether a value is pending: it is
false on a freshly constructed channel (either mode), false on the state a
completed `receive` leaves behind, and true precisely when the cell is
non-null. -/
theorem is_present_reports_pending {T : Type} (s : Bool)
    (c c' : send_one_replaceable_object_t T) (v : T)
    (h : Step c (Event.recv v) c') :
    is_object_present (init s : send_one_replaceable_object_t T) = false ∧
    is_object_present c' = false ∧
    (is_object_present c = true ↔ c.a_ptr ≠ none) := by
  refine ⟨rfl, ?_, ?_⟩
  · cases h with
    | recv v hld => rfl
  · simp only [is_object_present, load]
    cases c.a_ptr <;> simp

/-- C5 witness: a fresh overwrite-mode channel and a receive of 1. -/
theorem is_present_reports_pending_witness :
    is_object_present (init false : send_one_replaceable_object_t Nat) =
      false ∧
    is_object_present (⟨false, none⟩ : send_one_replaceable_object_t Nat) =
      false ∧
    (is_object_present (⟨false, some 1⟩ : send_one_replaceable_object_t Nat) =
        true ↔
      (⟨false, some 1⟩ : send_one_replaceable_object_t Nat).a_ptr ≠ none) :=
  is_present_reports_pending false ⟨false, some 1⟩ ⟨false, none⟩ 1
    (Step.recv ⟨false, some 1⟩ 1 rfl)

/-- C6: `send` cannot fail: its exchange always installs the value (there is
no error result, only the discarded old pointer), an overwrite-mode send is
always enabled, and a synchronous send is enabled exactly when the slot is
empty — occupation of the slot (blocking) is the only non-normal behaviour. -/
theorem send_cannot_fail_only_block {T : Type}
    (c : send_one_replaceable_object_t T) (v : T) :
    (send c v).1.a_ptr = some v ∧
    (c.sync = false → Step c (Event.send v) (send c v).1) ∧
    (c.sync = true →
      ((∃ c', Step c (Event.send v) c') ↔ c.a_ptr = none)) := by
  refine ⟨rfl, fun hs => Step.send_over c v hs, fun hs => ⟨?_, ?_⟩⟩
  · rintro ⟨c', hstep⟩
    cases hstep with
    | send_sync v hsy hld => exact hld
    | send_over v hsy => rw [hs] at hsy; cases hsy
  · intro he
    exact ⟨(send c v).1, Step.send_sync c v hs he⟩

/-- C6 witness: sending 9 on an overwrite channel and on an empty synchronous
channel. -/
theorem send_cannot_fail_only_block_witness :
    (send (init false : send_one_replaceable_object_t Nat) 9).1.a_ptr =
      some 9 ∧
    Step (init false : send_one_replaceable_object_t Nat) (Event.send 9)
      (send (init false) 9).1 ∧
    ((∃ c', Step (init true : send_one_replaceable_object_t Nat)
        (Event.send 9) c') ↔
      (init true : send_one_replaceable_object_t Nat).a_ptr = none) :=
  ⟨(send_cannot_fail_only_block (init false) 9).1,
   (send_cannot_fail_only_block (init false) 9).2.1 rfl,
   (send_cannot_fail_only_block (init true) 9).2.2 rfl⟩

/-- C7: if the slot is empty, a `send v` is enabled in either mode, the very
next load already observes `v`, a single receive step returns `v` and empties
the slot, and the retry loop finishes on its first attempt — so a pending
`receive` terminates with `v` after one polling interval. -/
theorem receive_gets_sent_value_promptly {T : Type}
    (c : send_one_replaceable_object_t T) (v : T) (h : c.a_ptr = none) :
    Step c (Event.send v) (send c v).1 ∧
    load (send c v).1 = some v ∧
    Step (send c v).1 (Event.recv v) ⟨c.sync, none⟩ ∧
    receive_loop [load (send c v).1] = some v ∧
    receive (send c v).1 = some (v, ⟨c.sync, none⟩) := by
  refine ⟨?_, rfl, Step.recv _ v rfl, rfl, rfl⟩
  cases hsy : c.sync with
  | true => exact Step.send_sync c v hsy h
  | false => exact Step.send_over c v hsy

/-- C7 witness: sending 11 on an empty synchronous channel. -/
theorem receive_gets_sent_value_promptly_witness :
    Step (init true : send_one_replaceable_object_t Nat) (Event.send 11)
      (send (init true) 11).1 ∧
    load (send (init true : send_one_replaceable_object_t Nat) 11).1 =
      some 11 ∧
    Step (send (init true : send_one_replaceable_object_t Nat) 11).1
      (Event.recv 11)
      ⟨(init true : send_one_replaceable_object_t Nat).sync, none⟩ ∧
    receive_loop
      [load (send (init true : send_one_replaceable_object_t Nat) 11).1] =
      some 11 ∧
    receive (send (init true : send_one_replaceable_object_t Nat) 11).1 =
      some (11, ⟨(init true : send_one_replaceable_object_t Nat).sync, none⟩) :=
  receive_gets_sent_value_promptly (init true) 11 rfl

/-- C10: a completed `is_object_present` call leaves the channel exactly as
it was — same pending value, same sync flag — and its result is the
`is_object_present` function of the unchanged state. -/
theorem is_present_does_not_modify_channel {T : Type}
    (c c' : send_one_replaceable_object_t T) (b : Bool)
    (h : Step c (Event.present b) c') :
    c' = c ∧ c'.a_ptr = c.a_ptr ∧ c'.sync = c.sync ∧
    b = is_object_present c := by
  cases h with
  | present => exact ⟨rfl, rfl, rfl, rfl⟩

/-- C10 witness: querying a channel holding the value 3. -/
theorem is_present_does_not_modify_channel_witness :
    (⟨true, some 3⟩ : send_one_replaceable_object_t Nat) = ⟨true, some 3⟩ ∧
    (⟨true, some 3⟩ : send_one_replaceable_object_t Nat).a_ptr =
      (⟨true, some 3⟩ : send_one_replaceable_object_t Nat).a_ptr ∧
    (⟨true, some 3⟩ : send_one_replaceable_object_t Nat).sync =
      (⟨true, some 3⟩ : send_one_replaceable_object_t Nat).sync ∧
    true = is_object_present (⟨true, some 3⟩ : send_one_replaceable_object_t Nat) :=
  is_present_does_not_modify_channel ⟨true, some 3⟩ ⟨true, some 3⟩ true
    (Step.present ⟨true, some 3⟩)

/-- C8: `objects_names_from_file` returns the empty vector when the file
cannot be opened, and otherwise one entry per line of the file, in file
order: an unopened file gives `[]`, an empty file gives `[]`, a file whose
content starts with a newline-free line `l` followed by a newline contributes
`l` and then the lines of the remainder, and a trailing newline-free nonempty
chunk contributes exactly itself. -/
theorem names_file_one_entry_per_line (l rest : List Char) :
    objects_names_from_file none = [] ∧
    objects_names_from_file (some []) = [] ∧
    ('\n' ∉ l →
      objects_names_from_file (some (l ++ '\n' :: rest)) =
        l :: objects_names_from_file (some rest)) ∧
    (l ≠ [] → '\n' ∉ l → objects_names_from_file (some l) = [l]) := by
  refine ⟨rfl, rfl, ?_, ?_⟩
  · intro hl
    simp only [objects_names_from_file]
    rw [getlinesAux_split l rest [] hl]
    simp
  · intro hne hl
    simp only [objects_names_from_file]
    rw [getlinesAux_last l [] hl]
    simp [List.isEmpty_iff, hne]

/-- C8 witness: the two-line file "a\nb" yields ["a", "b"]. -/
theorem names_file_one_entry_per_line_witness :
    objects_names_from_file none = [] ∧
    objects_names_from_file (some []) = [] ∧
    objects_names_from_file (some (['a'] ++ '\n' :: ['b'])) =
      ['a'] :: objects_names_from_file (some ['b']) ∧
    objects_names_from_file (some ['b']) = [['b']] := by
  have h := names_file_one_entry_per_line ['a'] ['b']
  have h' := names_file_one_entry_per_line ['b'] []
  exact ⟨h.1, h.2.1, h.2.2.1 (by decide), h'.2.2.2 (by decide) (by decide)⟩

/-- C9: both `show_console_result` and `draw_boxes` read the class-name list
only under the guard `obj_names.size() > i.obj_id`: a detection whose class
id is out of range gets no name printed and no label drawn (`none`), and
whenever a name or label is produced the id was in range and the name is the
in-bounds element at that index — no out-of-bounds access is possible. -/
theorem name_lookup_guarded_by_bounds (names : List String) (b : bbox_t)
    (result_vec : List bbox_t) :
    (¬ b.obj_id < names.length →
      console_entry names b = none ∧ box_label names b = none) ∧
    (∀ s, console_entry names b = some s →
      ∃ hb : b.obj_id < names.length, s = names.get ⟨b.obj_id, hb⟩) ∧
    (∀ p ∈ show_console_result result_vec names,
      p.1 ≠ none → p.2.obj_id < names.length) ∧
    (∀ p ∈ draw_boxes result_vec names,
      p.1 ≠ none → p.2.obj_id < names.length) := by
  refine ⟨?_, ?_, ?_, ?_⟩
  · intro hout
    exact ⟨dif_neg hout, dif_neg hout⟩
  · intro s hs
    by_cases hb : b.obj_id < names.length
    · refine ⟨hb, ?_⟩
      rw [console_entry, dif_pos hb] at hs
      exact (Option.some_inj.mp hs).symm
    · rw [console_entry, dif_neg hb] at hs
      cases hs
  · intro p hp hne
    rcases List.mem_map.mp hp with ⟨d, hd, hpd⟩
    subst hpd
    by_cases hb : d.obj_id < names.length
    · exact hb
    · exact absurd (dif_neg hb) hne
  · intro p hp hne
    rcases List.mem_map.mp hp with ⟨d, hd, hpd⟩
    subst hpd
    by_cases hb : d.obj_id < names.length
    · exact hb
    · exact absurd (dif_neg hb) hne

/-- C9 witness: names ["dog"], one in-range detection and evaluation of the
guards on a one-element result vector. -/
theorem name_lookup_guarded_by_bounds_witness :
    (¬ (⟨0, 0, 4, 4, 5, 0⟩ : bbox_t).obj_id < [("dog" : String)].length →
      console_entry ["dog"] ⟨0, 0, 4, 4, 5, 0⟩ = none ∧
      box_label ["dog"] ⟨0, 0, 4, 4, 5, 0⟩ = none) ∧
    (∀ s, console_entry ["dog"] ⟨0, 0, 4, 4, 5, 0⟩ = some s →
      ∃ hb : (⟨0, 0, 4, 4, 5, 0⟩ : bbox_t).obj_id < [("dog" : String)].length,
        s = [("dog" : String)].get ⟨(⟨0, 0, 4, 4, 5, 0⟩ : bbox_t).obj_id, hb⟩) ∧
    (∀ p ∈ show_console_result [⟨0, 0, 4, 4, 5, 0⟩] ["dog"],
      p.1 ≠ none → p.2.obj_id < [("dog" : String)].length) ∧
    (∀ p ∈ draw_boxes [⟨0, 0, 4, 4, 5, 0⟩] ["dog"],
      p.1 ≠ none → p.2.obj_id < [("dog" : String)].length) :=
  name_lookup_guarded_by_bounds ["dog"] ⟨0, 0, 4, 4, 5, 0⟩ [⟨0, 0, 4, 4, 5, 0⟩]
